import Mathlib

/-!
Post creation pipeline (`src/posts/create.js`).

A shallow embedding of `Posts.create`, `addReplyTo` and `checkToPid`.

* JavaScript values are the type `JSVal`; the language operations the module
  uses on them (`!`, `&&`, `||`, `!==`, `parseInt(_, 10)`, template literals,
  `toString`, `toLowerCase`, `replace`) are Lean functions.
* Every call the module makes to a collaborator (`db`, `plugins`, `user`,
  `topics`, `categories`, `groups`, `privileges`, `emailer`, `Posts.uploads`,
  `console`) is recorded, in the order the calls are issued, in the trace of a
  `Run`; what the collaborator answers comes from an `Env`.
-/

namespace NodeBB

/-! ## JavaScript values -/

/-- The JavaScript values the module handles. Numbers are the integral
numbers (ids, timestamps, counters) and `NaN`. -/
inductive JSVal where
  | undefined
  | null
  | bool (b : Bool)
  | num (n : Int)
  | nan
  | str (s : String)
  deriving DecidableEq

namespace JSVal

/-- ToBoolean: what `if (v)`, `!v`, `v && w`, `v || w` test. -/
def truthy : JSVal → Bool
  | undefined => false
  | null => false
  | bool b => b
  | num n => n != 0
  | nan => false
  | str s => s != ""

/-- Decimal digits of a natural number, most significant first. -/
def natDigits : Nat → Nat → List Char
  | 0, _ => []
  | fuel + 1, n =>
    if n < 10 then [Char.ofNat (48 + n)]
    else natDigits fuel (n / 10) ++ [Char.ofNat (48 + n % 10)]

/-- Number to string conversion of an integral number. -/
def intToString (n : Int) : String :=
  if n < 0 then String.mk ('-' :: natDigits (n.natAbs + 1) n.natAbs)
  else String.mk (natDigits (n.natAbs + 1) n.natAbs)

/-- ToString: what a template literal `${v}` and `parseInt` apply to `v`. -/
def toStr : JSVal → String
  | undefined => "undefined"
  | null => "null"
  | bool true => "true"
  | bool false => "false"
  | num n => intToString n
  | nan => "NaN"
  | str s => s

/-- The method call `v.toString()`: a TypeError (`none`) on `undefined` and
`null`, the string conversion otherwise. -/
def toStringMethod : JSVal → Option String
  | undefined => none
  | null => none
  | v => some (toStr v)

/-- Strict equality `===`. `NaN` is not equal to itself. -/
def strictEq : JSVal → JSVal → Bool
  | nan, _ => false
  | _, nan => false
  | a, b => decide (a = b)

/-- The operator `a || b`. -/
def orElse (a b : JSVal) : JSVal := if a.truthy then a else b

end JSVal

/-- White space skipped by `parseInt` at the start of its input. -/
def isJSWhiteSpace (c : Char) : Bool :=
  c.toNat = 9 || c.toNat = 10 || c.toNat = 11 || c.toNat = 12 || c.toNat = 13 ||
  c.toNat = 32 || c.toNat = 160 || c.toNat = 5760 ||
  (8192 ≤ c.toNat && c.toNat ≤ 8202) ||
  c.toNat = 8232 || c.toNat = 8233 || c.toNat = 8239 || c.toNat = 8287 ||
  c.toNat = 12288 || c.toNat = 65279

/-- Value of the longest leading run of decimal digits, `none` when it is empty. -/
def parseDigits : List Char → Option Nat → Option Nat
  | [], acc => acc
  | c :: cs, acc =>
    if 48 ≤ c.toNat ∧ c.toNat ≤ 57 then
      parseDigits cs (some (acc.getD 0 * 10 + (c.toNat - 48)))
    else acc

/-- Optional sign, then the digits. -/
def parseSigned : List Char → Option Int
  | '-' :: cs => (parseDigits cs none).map fun n => -(n : Int)
  | '+' :: cs => (parseDigits cs none).map fun n => (n : Int)
  | cs => (parseDigits cs none).map fun n => (n : Int)

/-- The call `parseInt(v, 10)`; `none` stands for `NaN`. -/
def parseInt (v : JSVal) : Option Int :=
  parseSigned (v.toStr.toList.dropWhile isJSWhiteSpace)

/-! ## Topic slug -/

/-- Basic Latin letters and digits: the class `[a-zA-Z0-9]` of the regular
expression. -/
def isAlnum (n : Nat) : Bool :=
  (97 ≤ n && n ≤ 122) || (65 ≤ n && n ≤ 90) || (48 ≤ n && n ≤ 57)

/-- Lower-case Basic Latin letters and digits. -/
def isLowerOrDigit (n : Nat) : Bool :=
  (97 ≤ n && n ≤ 122) || (48 ≤ n && n ≤ 57)

/-- Lower-casing of one code point as far as Basic Latin is concerned:
`A`-`Z` go to `a`-`z`, U+0130 goes to `i` followed by U+0307, U+212A (Kelvin
sign) goes to `k`. Every other code point is mapped by the Unicode tables of
the runtime to code points outside Basic Latin that take as many UTF-16 code
units as it does; it is left as it is here. -/
def lowerChar (c : Char) : List Char :=
  if 65 ≤ c.toNat ∧ c.toNat ≤ 90 then [Char.ofNat (c.toNat + 32)]
  else if c.toNat = 304 then ['i', Char.ofNat 775]
  else if c.toNat = 8490 then ['k']
  else [c]

/-- The method `String.prototype.toLowerCase`. -/
def toLowerCase (s : String) : String :=
  String.mk (s.toList.flatMap lowerChar)

/-- UTF-16 code units of a code point: the characters a JavaScript string is
made of and a regular expression without the `u` flag matches. -/
def utf16 (c : Char) : List Nat :=
  if c.toNat < 65536 then [c.toNat]
  else [55296 + (c.toNat - 65536) / 1024, 56320 + (c.toNat - 65536) % 1024]

/-- UTF-16 code units of a string. -/
def units (s : String) : List Nat := s.toList.flatMap utf16

/-- What `/[^a-zA-Z0-9]/g` with replacement `'-'` does to one code point: kept
when it is in the class, otherwise one hyphen for each of its code units. -/
def replaceChar (c : Char) : List Char :=
  if isAlnum c.toNat then [c]
  else if c.toNat < 65536 then ['-']
  else ['-', '-']

/-- The call `s.replace(/[^a-zA-Z0-9]/g, '-')`. -/
def replaceNonAlnum (s : String) : String :=
  String.mk (s.toList.flatMap replaceChar)

/-- The expression `title.toLowerCase().replace(/[^a-zA-Z0-9]/g, '-')`. -/
def topicSlug (title : String) : String :=
  replaceNonAlnum (toLowerCase title)

/-- What `replace` does to one code unit. -/
def slugUnit (u : Nat) : Nat := if isAlnum u then u else 45

/-! ## Records -/

/-- The argument of `Posts.create`; an absent property is `undefined`. -/
structure Data where
  uid : JSVal := .undefined
  tid : JSVal := .undefined
  content : JSVal := .undefined
  timestamp : JSVal := .undefined
  isMain : JSVal := .undefined
  toPid : JSVal := .undefined
  anonymous : JSVal := .undefined
  ip : JSVal := .undefined
  handle : JSVal := .undefined
  deriving DecidableEq

/-- The post object. The five properties of the object literal are always
there; the others are `none` while the property is absent. -/
structure PostData where
  pid : JSVal
  uid : JSVal
  tid : JSVal
  content : JSVal
  timestamp : JSVal
  toPid : Option JSVal := none
  ip : Option JSVal := none
  handle : Option JSVal := none
  cid : Option JSVal := none
  isMain : Option JSVal := none
  deriving DecidableEq

/-- Reading a property that may be absent. -/
def prop (v : Option JSVal) : JSVal := v.getD .undefined

/-- What `Posts.getPostFields(toPid, ['pid', 'deleted'])` resolves to. -/
structure PostFields where
  pid : JSVal
  deleted : JSVal
  deriving DecidableEq

/-- What `topics.getTopicFields(tid, ['cid', 'pinned', 'uid', 'title'])`
resolves to. -/
structure TopicData where
  cid : JSVal
  pinned : JSVal
  uid : JSVal
  title : JSVal
  deriving DecidableEq

/-- The `notification` property of the email parameters. -/
structure Notification where
  type : String
  content : JSVal
  title : JSVal
  pid : JSVal
  topicId : JSVal
  topicSlug : String
  deriving DecidableEq

/-- The parameters handed to `emailer.sendNotificationEmail`. -/
structure EmailParams where
  subject : String
  notification : Notification
  username : JSVal
  deriving DecidableEq

/-! ## Errors, effects, runs -/

/-- Why a run fails. The two errors the module throws itself are kept apart
from a TypeError of the language and from the rejection of a collaborator. -/
inductive Err where
  | invalidUid
  | invalidPid
  | typeError
  | collab (e : String)
  deriving DecidableEq

/-- Outcome of an awaited call. -/
inductive Outcome (α : Type) where
  | ok (a : α)
  | error (e : Err)
  deriving DecidableEq

/-- Answer of a collaborator: a value or a rejection. -/
inductive Answer (α : Type) where
  | resolve (a : α)
  | reject (e : String)
  deriving DecidableEq

/-- The awaited answer of a collaborator. -/
def Answer.await {α : Type} : Answer α → Outcome α
  | .resolve a => .ok a
  | .reject e => .error (.collab e)

/-- A call issued to a collaborator, with its arguments. -/
inductive Effect where
  | getPostFields (pid : JSVal) (fields : List String)
  | can (privilege : String) (pid uid : JSVal)
  | incrObjectField (key field : String)
  | fireFilter (hook : String) (post : PostData)
  | setObject (key : String) (post : PostData)
  | getTopicFields (tid : JSVal) (fields : List String)
  | getUserField (uid : JSVal) (field : String)
  | sendNotificationEmail (template : String) (email : JSVal) (language : String)
      (params : EmailParams)
  | consoleError (message : String) (err : Err)
  | sortedSetAdd (key : String) (score value : JSVal)
  | userOnNewPostMade (post : PostData)
  | topicsOnNewPostMade (post : PostData)
  | categoriesOnNewPostMade (cid pinned : JSVal) (post : PostData)
  | groupsOnNewPostMade (post : PostData)
  | uploadsSync (pid : JSVal)
  | fireAction (hook : String) (post : PostData)
  deriving DecidableEq

/-- A finished asynchronous computation: the calls it issued, in the order
they were issued, and how it settled. -/
structure Run (α : Type) where
  trace : List Effect
  result : Outcome α
  deriving DecidableEq

namespace Run

/-- A computation that issues no call and returns. -/
def pure {α : Type} (a : α) : Run α := ⟨[], .ok a⟩

/-- The statement `throw`. -/
def throw {α : Type} (e : Err) : Run α := ⟨[], .error e⟩

/-- One awaited call to a collaborator. -/
def call {α : Type} (eff : Effect) (answer : Answer α) : Run α := ⟨[eff], answer.await⟩

/-- A call whose promise is not awaited. -/
def fire (eff : Effect) : Run Unit := ⟨[eff], .ok ()⟩

/-- Sequencing: `const a = await r; ...f a...`. Nothing after a failed
`await` runs. -/
def bind {α β : Type} (r : Run α) (f : α → Run β) : Run β :=
  match r.result with
  | .ok a => ⟨r.trace ++ (f a).trace, (f a).result⟩
  | .error e => ⟨r.trace, .error e⟩

/-- An awaited computation whose value is not used. -/
def void {α : Type} (r : Run α) : Run Unit :=
  ⟨r.trace,
    match r.result with
    | .ok _ => .ok ()
    | .error e => .error e⟩

/-- The block `try`/`catch` around an awaited call: the handler `h` runs on
the error of `r`, and the block settles as the handler does. -/
def tryCatch (r : Run Unit) (h : Err → Run Unit) : Run Unit :=
  match r.result with
  | .ok a => ⟨r.trace, .ok a⟩
  | .error e => ⟨r.trace ++ (h e).trace, (h e).result⟩

/-- The call `Promise.all([a, b])` with destructuring of the two values: both
calls are issued, and the whole fails when one of them does (with the error of
the first failed entry of the array). -/
def both {α β : Type} (a : Run α) (b : Run β) : Run (α × β) :=
  ⟨a.trace ++ b.trace,
    match a.result, b.result with
    | .ok x, .ok y => .ok (x, y)
    | .error e, _ => .error e
    | .ok _, .error e => .error e⟩

/-- The call `Promise.all([...])` on units of work whose values are not
used: all are issued, and the whole fails when one of them does. -/
def all : List (Run Unit) → Run Unit
  | [] => pure ()
  | r :: rs =>
    ⟨r.trace ++ (all rs).trace,
      match r.result with
      | .ok _ => (all rs).result
      | .error e => .error e⟩

end Run

/-! ## Collaborators -/

/-- What the collaborators answer. -/
structure Env where
  /-- Answer of `Date.now()`. -/
  now : Int
  /-- Answer of `meta.config.trackIpPerPost`. -/
  trackIpPerPost : JSVal
  /-- Answer of `db.incrObjectField(key, field)`. -/
  incrObjectField : String → String → Answer JSVal
  /-- Answer of `db.setObject(key, post)`. -/
  setObject : String → PostData → Answer Unit
  /-- Answer of `db.sortedSetAdd(key, score, value)`. -/
  sortedSetAdd : String → JSVal → JSVal → Answer Unit
  /-- Answer of `Posts.getPostFields(pid, fields)`. -/
  getPostFields : JSVal → List String → Answer PostFields
  /-- Answer of `privileges.posts.can(privilege, pid, uid)`. -/
  can : String → JSVal → JSVal → Answer JSVal
  /-- Answer of `plugins.hooks.fire('filter:post.create', ...)`: its `post`. -/
  filterPostCreate : PostData → Data → Answer PostData
  /-- Answer of `plugins.hooks.fire('filter:post.get', ...)`: its `post`. -/
  filterPostGet : PostData → JSVal → Answer PostData
  /-- Answer of `topics.getTopicFields(tid, fields)`. -/
  getTopicFields : JSVal → List String → Answer TopicData
  /-- Answer of `user.getUserField(uid, field)`. -/
  getUserField : JSVal → String → Answer JSVal
  /-- Answer of `emailer.sendNotificationEmail(template, email, language, params)`. -/
  sendNotificationEmail : String → JSVal → String → EmailParams → Answer Unit
  /-- Answer of `user.onNewPostMade(post)`. -/
  userOnNewPostMade : PostData → Answer Unit
  /-- Answer of `topics.onNewPostMade(post)`. -/
  topicsOnNewPostMade : PostData → Answer Unit
  /-- Answer of `categories.onNewPostMade(cid, pinned, post)`. -/
  categoriesOnNewPostMade : JSVal → JSVal → PostData → Answer Unit
  /-- Answer of `groups.onNewPostMade(post)`. -/
  groupsOnNewPostMade : PostData → Answer Unit
  /-- Answer of `Posts.uploads.sync(pid)`. -/
  uploadsSync : JSVal → Answer Unit

/-! ## The module -/

/-- The guard of line 24, `!uid && parseInt(uid, 10) !== 0`: true when the
uid is refused. -/
def uidRefused (uid : JSVal) : Bool :=
  !uid.truthy && parseInt uid != some 0

/-- The function `checkToPid(toPid, uid)`. -/
def checkToPid (env : Env) (toPid uid : JSVal) : Run Unit :=
  (Run.both
    (Run.call (.getPostFields toPid ["pid", "deleted"])
      (env.getPostFields toPid ["pid", "deleted"]))
    (Run.call (.can "posts:view_deleted" toPid uid)
      (env.can "posts:view_deleted" toPid uid))).bind fun r =>
  let toPost := r.1
  let canViewToPid := r.2
  let toPidExists := toPost.pid.truthy
  if !toPidExists || (toPost.deleted.truthy && !canViewToPid.truthy) then
    Run.throw .invalidPid
  else Run.pure ()

/-- The function `addReplyTo(postData, timestamp)`. -/
def addReplyTo (env : Env) (postData : PostData) (timestamp : JSVal) : Run Unit :=
  if !(prop postData.toPid).truthy then Run.pure ()
  else
    (Run.both
      (Run.call
        (.sortedSetAdd ("pid:" ++ (prop postData.toPid).toStr ++ ":replies") timestamp
          postData.pid)
        (env.sortedSetAdd ("pid:" ++ (prop postData.toPid).toStr ++ ":replies") timestamp
          postData.pid))
      (Run.call (.incrObjectField ("post:" ++ (prop postData.toPid).toStr) "replies")
        (env.incrObjectField ("post:" ++ (prop postData.toPid).toStr) "replies"))).void

/-- Lines 18 to 30 of `Posts.create`: the content is converted, the uid is
checked, the parent reference is checked when there is one. Returns the
content. -/
def validate (env : Env) (data : Data) : Run String :=
  match data.content.toStringMethod with
  | none => Run.throw .typeError
  | some content =>
    if uidRefused data.uid then Run.throw .invalidUid
    else if data.toPid.truthy then
      (checkToPid env data.toPid data.uid).bind fun _ => Run.pure content
    else Run.pure content

/-- Lines 33 to 49: the post object built from the input. -/
def buildPostData (env : Env) (data : Data) (content : String) (timestamp pid : JSVal) :
    PostData :=
  { pid := pid
    uid := if data.anonymous.truthy then .num 0 else data.uid
    tid := data.tid
    content := .str content
    timestamp := timestamp
    toPid := if data.toPid.truthy then some data.toPid else none
    ip := if data.ip.truthy && env.trackIpPerPost.truthy then some data.ip else none
    handle :=
      if data.handle.truthy && !(parseInt data.uid != none && parseInt data.uid != some 0)
      then some data.handle else none }

/-- Lines 63 to 74: the email parameters; a TypeError (`none`) when the title
has no `toLowerCase`. -/
def emailParams (data : Data) (postData : PostData) (topicData : TopicData)
    (username : JSVal) : Option EmailParams :=
  match topicData.title with
  | .str title =>
    some
      { subject := "New reply to your topic: \"" ++ topicData.title.toStr ++ "\""
        notification :=
          { type := "reply"
            content := postData.content
            title := topicData.title
            pid := postData.pid
            topicId := data.tid
            topicSlug := topicSlug title }
        username := username }
  | _ => none

/-- Lines 62 to 84: the notification of the topic creator. -/
def notify (env : Env) (data : Data) (postData : PostData) (topicData : TopicData)
    (email username : JSVal) : Run Unit :=
  if data.tid.truthy && topicData.uid.truthy && !(data.uid.strictEq topicData.uid) then
    match emailParams data postData topicData username with
    | none => Run.throw .typeError
    | some params =>
      Run.tryCatch
        (Run.call (.sendNotificationEmail "notification" email "en-GB" params)
          (env.sendNotificationEmail "notification" email "en-GB" params))
        fun err =>
          Run.fire
            (.consoleError
              ("Failed to send notification email for reply to topic \"" ++
                topicData.title.toStr ++ "\":") err)
  else Run.pure ()

/-- Lines 86 to 95: the eight units of work handed to `Promise.all`. -/
def fanOut (env : Env) (postData : PostData) (topicData : TopicData) (timestamp : JSVal) :
    Run Unit :=
  Run.all
    [ Run.call (.sortedSetAdd "posts:pid" timestamp postData.pid)
        (env.sortedSetAdd "posts:pid" timestamp postData.pid),
      (Run.call (.incrObjectField "global" "postCount")
        (env.incrObjectField "global" "postCount")).void,
      Run.call (.userOnNewPostMade postData) (env.userOnNewPostMade postData),
      Run.call (.topicsOnNewPostMade postData) (env.topicsOnNewPostMade postData),
      Run.call (.categoriesOnNewPostMade topicData.cid topicData.pinned postData)
        (env.categoriesOnNewPostMade topicData.cid topicData.pinned postData),
      Run.call (.groupsOnNewPostMade postData) (env.groupsOnNewPostMade postData),
      addReplyTo env postData timestamp,
      Run.call (.uploadsSync postData.pid) (env.uploadsSync postData.pid) ]

/-- Lines 86 to 100: the fan-out, the `filter:post.get` hook, the `isMain`
flag, the `action:post.save` hook (not awaited) and the return. -/
def finish (env : Env) (data : Data) (timestamp : JSVal) (postData : PostData)
    (topicData : TopicData) : Run PostData :=
  (fanOut env postData topicData timestamp).bind fun _ =>
  (Run.call (.fireFilter "filter:post.get" postData)
    (env.filterPostGet postData data.uid)).bind fun post =>
  let post := { post with isMain := some (data.isMain.orElse (.bool false)) }
  (Run.fire (.fireAction "action:post.save" post)).bind fun _ =>
  Run.pure post

/-- Lines 55 to 100: what follows the write of the post object. -/
def afterWrite (env : Env) (data : Data) (timestamp : JSVal) (postData : PostData) :
    Run PostData :=
  (Run.call (.getTopicFields data.tid ["cid", "pinned", "uid", "title"])
    (env.getTopicFields data.tid ["cid", "pinned", "uid", "title"])).bind fun topicData =>
  let postData := { postData with cid := some topicData.cid }
  (Run.call (.getUserField topicData.uid "email")
    (env.getUserField topicData.uid "email")).bind fun email =>
  (Run.call (.getUserField topicData.uid "username")
    (env.getUserField topicData.uid "username")).bind fun username =>
  (notify env data postData topicData email username).bind fun _ =>
  finish env data timestamp postData topicData

/-- Lines 32 to 100: what follows the validation. -/
def persist (env : Env) (data : Data) (content : String) : Run PostData :=
  let timestamp := data.timestamp.orElse (.num env.now)
  (Run.call (.incrObjectField "global" "nextPid")
    (env.incrObjectField "global" "nextPid")).bind fun pid =>
  (Run.call (.fireFilter "filter:post.create" (buildPostData env data content timestamp pid))
    (env.filterPostCreate (buildPostData env data content timestamp pid) data)).bind
    fun postData =>
  (Run.call (.setObject ("post:" ++ postData.pid.toStr) postData)
    (env.setObject ("post:" ++ postData.pid.toStr) postData)).bind fun _ =>
  afterWrite env data timestamp postData

/-- The function `Posts.create(data)`. -/
def create (env : Env) (data : Data) : Run PostData :=
  (validate env data).bind fun content => persist env data content

/-! ## Predicates on errors, calls and runs -/

/-- The errors the module throws itself. -/
def Err.isValidation : Err → Bool
  | .invalidUid => true
  | .invalidPid => true
  | _ => false

/-- A run that cannot fail with one of the module's own errors. -/
def Run.Foreign {α : Type} (r : Run α) : Prop :=
  ∀ e, r.result = .error e → e.isValidation = false

/-- The calls that change a store: the database writes and the subsystems
that are told of the new post. -/
def Effect.isWrite : Effect → Bool
  | .incrObjectField _ _ => true
  | .setObject _ _ => true
  | .sortedSetAdd _ _ _ => true
  | .userOnNewPostMade _ => true
  | .topicsOnNewPostMade _ => true
  | .categoriesOnNewPostMade _ _ _ => true
  | .groupsOnNewPostMade _ => true
  | .uploadsSync _ => true
  | _ => false

/-- The calls `console.error(...)`. -/
def Effect.isConsoleError : Effect → Bool
  | .consoleError _ _ => true
  | _ => false

/-- The calls `emailer.sendNotificationEmail(...)`. -/
def Effect.isSend : Effect → Bool
  | .sendNotificationEmail _ _ _ _ => true
  | _ => false

/-- The calls `db.setObject(...)`. -/
def Effect.isSetObject : Effect → Bool
  | .setObject _ _ => true
  | _ => false

/-- The additions to the sorted set `key`. -/
def Effect.isAddTo (key : String) : Effect → Bool
  | .sortedSetAdd k _ _ => k == key
  | _ => false

/-- The increments of the field `field` of the object `key`. -/
def Effect.isIncrOf (key field : String) : Effect → Bool
  | .incrObjectField k f => k == key && f == field
  | _ => false

/-- Values of type string. -/
def JSVal.isString : JSVal → Bool
  | .str _ => true
  | _ => false

/-- The same collaborators, with another `emailer.sendNotificationEmail`. -/
def Env.withSend (env : Env) (send : String → JSVal → String → EmailParams → Answer Unit) :
    Env :=
  { env with sendNotificationEmail := send }

/-- The calls of a trace other than `console.error`. -/
def issued (t : List Effect) : List Effect := t.filter fun e => !e.isConsoleError

/-- Two runs that settle alike and issue the same calls, `console.error`
apart. -/
def Run.Same {α : Type} (r₁ r₂ : Run α) : Prop :=
  r₁.result = r₂.result ∧ issued r₁.trace = issued r₂.trace

/-! ## The slug as the specification words it -/

/-- Follows the wording of the specification, not the code: every maximal run
of non-alphanumeric characters gives a single hyphen. The flag tells whether
the previous character was part of such a run. -/
def collapseRuns : Bool → List Char → List Char
  | _, [] => []
  | inRun, c :: cs =>
    if isAlnum c.toNat then c :: collapseRuns false cs
    else if inRun then collapseRuns true cs
    else '-' :: collapseRuns true cs

/-- Follows the wording of the specification, not the code: the lower-cased
title in which every maximal run of non-alphanumeric characters is replaced by
a single hyphen. -/
def slugBySpec (title : String) : String :=
  String.mk (collapseRuns false (toLowerCase title).toList)

/-! ## Concrete collaborators and inputs -/

/-- Collaborators that all resolve: ids start at 42, the clock reads 1000,
every parent post exists and is not deleted, nobody may view deleted posts, the
hooks return the post unchanged, every topic is in category 3, was created by
user 1 and is titled "My Topic!", and the tracking of IPs is on. -/
def demoEnv : Env where
  now := 1000
  trackIpPerPost := .num 1
  incrObjectField := fun _ _ => .resolve (.num 42)
  setObject := fun _ _ => .resolve ()
  sortedSetAdd := fun _ _ _ => .resolve ()
  getPostFields := fun pid _ => .resolve { pid := pid, deleted := .num 0 }
  can := fun _ _ _ => .resolve (.bool false)
  filterPostCreate := fun p _ => .resolve p
  filterPostGet := fun p _ => .resolve p
  getTopicFields := fun _ _ =>
    .resolve { cid := .num 3, pinned := .num 0, uid := .num 1, title := .str "My Topic!" }
  getUserField := fun _ f => .resolve (.str f)
  sendNotificationEmail := fun _ _ _ _ => .resolve ()
  userOnNewPostMade := fun _ => .resolve ()
  topicsOnNewPostMade := fun _ => .resolve ()
  categoriesOnNewPostMade := fun _ _ _ => .resolve ()
  groupsOnNewPostMade := fun _ => .resolve ()
  uploadsSync := fun _ => .resolve ()

/-- As `demoEnv`, but every parent post is soft-deleted. -/
def deletedParentEnv : Env :=
  { demoEnv with getPostFields := fun pid _ => .resolve { pid := pid, deleted := .num 1 } }

/-- As `demoEnv`, but every topic was created by a guest (uid 0). -/
def guestTopicEnv : Env :=
  { demoEnv with
    getTopicFields := fun _ _ =>
      .resolve { cid := .num 3, pinned := .num 0, uid := .num 0, title := .str "My Topic!" } }

/-- As `demoEnv`, but the `filter:post.create` hook removes the parent
reference from the post. -/
def strippingEnv : Env :=
  { demoEnv with filterPostCreate := fun p _ => .resolve { p with toPid := none } }

/-- A reply by user 5 in topic 9. -/
def replyData : Data :=
  { uid := .num 5, tid := .num 9, content := .str "hello", anonymous := .bool false }

/-- A reply by user 5 in topic 9 to the post 7. -/
def replyToData : Data :=
  { uid := .num 5, tid := .num 9, content := .str "hello", toPid := .num 7 }

/-- An anonymous reply by user 5 in topic 9, sent from 10.0.0.1. -/
def anonymousData : Data :=
  { uid := .num 5, tid := .num 9, content := .str "hello", anonymous := .bool true,
    ip := .str "10.0.0.1" }

/-- The post `create` returns for `replyData`, `replyToData` (with the parent
reference) and `anonymousData` (with the uid 0 and the ip) under `demoEnv`. -/
def demoPost (uid : JSVal) (toPid ip : Option JSVal) : PostData :=
  { pid := .num 42, uid := uid, tid := .num 9, content := .str "hello", timestamp := .num 1000,
    toPid := toPid, ip := ip, cid := some (.num 3), isMain := some (.bool false) }

/-! ## Lemmas on runs -/

namespace Run

variable {α β : Type}

@[simp]
theorem trace_pure (a : α) : (Run.pure a).trace = [] := rfl
@[simp]
theorem result_pure (a : α) : (Run.pure a).result = .ok a := rfl
@[simp]
theorem trace_throw (e : Err) : (Run.throw e : Run α).trace = [] := rfl
@[simp]
theorem result_throw (e : Err) : (Run.throw e : Run α).result = .error e := rfl
@[simp]
theorem trace_call (eff : Effect) (ans : Answer α) : (Run.call eff ans).trace = [eff] := rfl
@[simp]
theorem result_call (eff : Effect) (ans : Answer α) :
    (Run.call eff ans).result = ans.await := rfl
@[simp]
theorem trace_fire (eff : Effect) : (Run.fire eff).trace = [eff] := rfl
@[simp]
theorem result_fire (eff : Effect) : (Run.fire eff).result = .ok () := rfl
@[simp]
theorem trace_void (r : Run α) : r.void.trace = r.trace := rfl
@[simp]
theorem trace_both (a : Run α) (b : Run β) : (Run.both a b).trace = a.trace ++ b.trace :=
  rfl
@[simp]
theorem trace_all_nil : (Run.all []).trace = [] := rfl
@[simp]
theorem trace_all_cons (r : Run Unit) (rs : List (Run Unit)) :
    (Run.all (r :: rs)).trace = r.trace ++ (Run.all rs).trace := rfl

theorem bind_of_ok {r : Run α} {a : α} (f : α → Run β) (h : r.result = .ok a) :
    r.bind f = ⟨r.trace ++ (f a).trace, (f a).result⟩ := by
  simp [Run.bind, h]

theorem bind_of_error {r : Run α} {e : Err} (f : α → Run β) (h : r.result = .error e) :
    r.bind f = ⟨r.trace, .error e⟩ := by
  simp [Run.bind, h]

theorem result_bind_ok_iff {r : Run α} {f : α → Run β} {b : β} :
    (r.bind f).result = .ok b ↔ ∃ a, r.result = .ok a ∧ (f a).result = .ok b := by
  cases h : r.result with
  | ok a => simp [bind_of_ok f h]
  | error e => simp [bind_of_error f h]

theorem result_bind_error_iff {r : Run α} {f : α → Run β} {e : Err} :
    (r.bind f).result = .error e ↔
      r.result = .error e ∨ ∃ a, r.result = .ok a ∧ (f a).result = .error e := by
  cases h : r.result with
  | ok a => simp [bind_of_ok f h]
  | error e => simp [bind_of_error f h]

theorem filter_bind_nil (p : Effect → Bool) {r : Run α} {f : α → Run β}
    (hr : r.trace.filter p = []) (hf : ∀ a, (f a).trace.filter p = []) :
    (r.bind f).trace.filter p = [] := by
  cases h : r.result with
  | ok a => simp [bind_of_ok f h, hr, hf a]
  | error e => simp [bind_of_error f h, hr]

theorem filter_bind_tail_nil (p : Effect → Bool) {r : Run α} {f : α → Run β}
    (hf : ∀ a, (f a).trace.filter p = []) :
    (r.bind f).trace.filter p = r.trace.filter p := by
  cases h : r.result with
  | ok a => simp [bind_of_ok f h, hf a]
  | error e => simp [bind_of_error f h]

theorem length_filter_bind_le (p : Effect → Bool) {r : Run α} {f : α → Run β} {m n : Nat}
    (hr : (r.trace.filter p).length ≤ m) (hf : ∀ a, ((f a).trace.filter p).length ≤ n) :
    ((r.bind f).trace.filter p).length ≤ m + n := by
  cases h : r.result with
  | ok a =>
    have := hf a
    simp only [bind_of_ok f h, List.filter_append, List.length_append]
    omega
  | error e =>
    simp only [bind_of_error f h]
    omega

theorem filter_bind_ok (p : Effect → Bool) {r : Run α} {a : α} (f : α → Run β)
    (h : r.result = .ok a) :
    (r.bind f).trace.filter p = r.trace.filter p ++ (f a).trace.filter p := by
  simp [bind_of_ok f h]


theorem foreign_pure (a : α) : (Run.pure a).Foreign := by
  intro e h; simp at h

theorem foreign_typeError : (Run.throw .typeError : Run α).Foreign := by
  intro e h; simp at h; subst h; rfl

theorem foreign_call (eff : Effect) (ans : Answer α) : (Run.call eff ans).Foreign := by
  intro e h
  cases ans with
  | resolve a => simp [Answer.await] at h
  | reject m => simp [Answer.await] at h; subst h; rfl

theorem foreign_fire (eff : Effect) : (Run.fire eff).Foreign := by
  intro e h; simp at h

theorem foreign_bind {r : Run α} {f : α → Run β} (hr : r.Foreign) (hf : ∀ a, (f a).Foreign) :
    (r.bind f).Foreign := by
  intro e h
  rcases result_bind_error_iff.mp h with h | ⟨a, _, h⟩
  · exact hr e h
  · exact hf a e h

theorem foreign_void {r : Run α} (hr : r.Foreign) : r.void.Foreign := by
  intro e h
  apply hr e
  unfold Run.void at h
  cases hres : r.result with
  | ok a => simp [hres] at h
  | error e2 => simp [hres] at h; rw [h]

theorem foreign_both {a : Run α} {b : Run β} (ha : a.Foreign) (hb : b.Foreign) :
    (Run.both a b).Foreign := by
  intro e h
  unfold Run.both at h
  cases hra : a.result with
  | ok x =>
    cases hrb : b.result with
    | ok y => simp [hra, hrb] at h
    | error e2 => simp [hra, hrb] at h; subst h; exact hb _ hrb
  | error e1 => simp [hra] at h; subst h; exact ha _ hra

theorem foreign_all {rs : List (Run Unit)} (h : ∀ r ∈ rs, r.Foreign) : (Run.all rs).Foreign := by
  induction rs with
  | nil => exact foreign_pure ()
  | cons r rs ih =>
    intro e he
    unfold Run.all at he
    cases hr : r.result with
    | ok u =>
      simp [hr] at he
      exact ih (fun r' hr' => h r' (List.mem_cons_of_mem _ hr')) e he
    | error e1 =>
      simp [hr] at he; subst he
      exact h r (List.mem_cons_self _ _) _ hr

theorem foreign_tryCatch {r : Run Unit} {h : Err → Run Unit} (hh : ∀ e, (h e).Foreign) :
    (Run.tryCatch r h).Foreign := by
  intro e he
  unfold Run.tryCatch at he
  cases hr : r.result with
  | ok u => simp [hr] at he
  | error e1 => simp [hr] at he; exact hh e1 e he

end Run

theorem addReplyTo_foreign (env : Env) (postData : PostData) (timestamp : JSVal) :
    (addReplyTo env postData timestamp).Foreign := by
  unfold addReplyTo
  split
  · exact Run.foreign_pure ()
  · exact Run.foreign_void (Run.foreign_both (Run.foreign_call _ _) (Run.foreign_call _ _))

theorem notify_foreign (env : Env) (data : Data) (postData : PostData) (topicData : TopicData)
    (email username : JSVal) : (notify env data postData topicData email username).Foreign := by
  unfold notify
  split
  · split
    · exact Run.foreign_typeError
    · exact Run.foreign_tryCatch fun _ => Run.foreign_fire _
  · exact Run.foreign_pure ()

theorem fanOut_foreign (env : Env) (postData : PostData) (topicData : TopicData)
    (timestamp : JSVal) : (fanOut env postData topicData timestamp).Foreign := by
  unfold fanOut
  apply Run.foreign_all
  intro r hr
  simp only [List.mem_cons, List.mem_singleton, List.not_mem_nil, or_false] at hr
  rcases hr with h | h | h | h | h | h | h | h <;> subst h
  · exact Run.foreign_call _ _
  · exact Run.foreign_void (Run.foreign_call _ _)
  · exact Run.foreign_call _ _
  · exact Run.foreign_call _ _
  · exact Run.foreign_call _ _
  · exact Run.foreign_call _ _
  · exact addReplyTo_foreign _ _ _
  · exact Run.foreign_call _ _

theorem finish_foreign (env : Env) (data : Data) (timestamp : JSVal) (postData : PostData)
    (topicData : TopicData) : (finish env data timestamp postData topicData).Foreign := by
  unfold finish
  refine Run.foreign_bind (fanOut_foreign _ _ _ _) fun _ => ?_
  refine Run.foreign_bind (Run.foreign_call _ _) fun post => ?_
  exact Run.foreign_bind (Run.foreign_fire _) fun _ => Run.foreign_pure _

theorem afterWrite_foreign (env : Env) (data : Data) (timestamp : JSVal) (postData : PostData) :
    (afterWrite env data timestamp postData).Foreign := by
  unfold afterWrite
  refine Run.foreign_bind (Run.foreign_call _ _) fun topicData => ?_
  refine Run.foreign_bind (Run.foreign_call _ _) fun email => ?_
  refine Run.foreign_bind (Run.foreign_call _ _) fun username => ?_
  exact Run.foreign_bind (notify_foreign _ _ _ _ _ _) fun _ => finish_foreign _ _ _ _ _

theorem persist_foreign (env : Env) (data : Data) (content : String) :
    (persist env data content).Foreign := by
  unfold persist
  refine Run.foreign_bind (Run.foreign_call _ _) fun pid => ?_
  refine Run.foreign_bind (Run.foreign_call _ _) fun postData => ?_
  exact Run.foreign_bind (Run.foreign_call _ _) fun _ => afterWrite_foreign _ _ _ _

/-- When `create` fails with one of the module's own errors, it is the
validation that failed, and `create` issued the calls of the validation only. -/
theorem create_validation_error {env : Env} {data : Data} {e : Err}
    (he : e.isValidation = true) (h : (create env data).result = .error e) :
    (validate env data).result = .error e ∧ (create env data).trace = (validate env data).trace := by
  unfold create at h ⊢
  rcases Run.result_bind_error_iff.mp h with h1 | ⟨content, _, h2⟩
  · exact ⟨h1, by rw [Run.bind_of_error _ h1]⟩
  · have := persist_foreign env data content e h2
    rw [he] at this
    contradiction

theorem create_of_validate_error {env : Env} {data : Data} {e : Err}
    (h : (validate env data).result = .error e) :
    create env data = ⟨(validate env data).trace, .error e⟩ := by
  unfold create
  exact Run.bind_of_error _ h

theorem checkToPid_trace (env : Env) (toPid uid : JSVal) :
    (checkToPid env toPid uid).trace =
      [.getPostFields toPid ["pid", "deleted"], .can "posts:view_deleted" toPid uid] := by
  unfold checkToPid
  cases h : (Run.both
    (Run.call (.getPostFields toPid ["pid", "deleted"])
      (env.getPostFields toPid ["pid", "deleted"]))
    (Run.call (.can "posts:view_deleted" toPid uid)
      (env.can "posts:view_deleted" toPid uid))).result with
  | ok a =>
    rw [Run.bind_of_ok _ h]
    simp only [Run.trace_both, Run.trace_call]
    split <;> simp
  | error e =>
    rw [Run.bind_of_error _ h]
    simp

theorem validate_trace (env : Env) (data : Data) :
    (validate env data).trace = [] ∨
    (validate env data).trace =
      [.getPostFields data.toPid ["pid", "deleted"],
       .can "posts:view_deleted" data.toPid data.uid] := by
  unfold validate
  split
  · left; rfl
  · split
    · left; rfl
    · split
      · right
        cases h : (checkToPid env data.toPid data.uid).result with
        | ok a => rw [Run.bind_of_ok _ h]; simp [checkToPid_trace]
        | error e => rw [Run.bind_of_error _ h]; simp [checkToPid_trace]
      · left; rfl

theorem checkToPid_result (env : Env) (toPid uid : JSVal) (toPost : PostFields)
    (canViewToPid : JSVal)
    (hpost : env.getPostFields toPid ["pid", "deleted"] = .resolve toPost)
    (hcan : env.can "posts:view_deleted" toPid uid = .resolve canViewToPid) :
    (checkToPid env toPid uid).result =
      if !toPost.pid.truthy || (toPost.deleted.truthy && !canViewToPid.truthy) then
        .error .invalidPid
      else .ok () := by
  have h : (Run.both
    (Run.call (.getPostFields toPid ["pid", "deleted"])
      (env.getPostFields toPid ["pid", "deleted"]))
    (Run.call (.can "posts:view_deleted" toPid uid)
      (env.can "posts:view_deleted" toPid uid))).result = .ok (toPost, canViewToPid) := by
    simp [Run.both, hpost, hcan, Answer.await]
  unfold checkToPid
  rw [Run.bind_of_ok _ h]
  simp only
  split <;> rfl

theorem addReplyTo_trace (env : Env) (postData : PostData) (timestamp : JSVal) :
    (addReplyTo env postData timestamp).trace =
      if (prop postData.toPid).truthy then
        [.sortedSetAdd ("pid:" ++ (prop postData.toPid).toStr ++ ":replies") timestamp
            postData.pid,
          .incrObjectField ("post:" ++ (prop postData.toPid).toStr) "replies"]
      else [] := by
  unfold addReplyTo
  by_cases h : (prop postData.toPid).truthy = true <;> simp [h]

theorem fanOut_trace (env : Env) (postData : PostData) (topicData : TopicData)
    (timestamp : JSVal) :
    (fanOut env postData topicData timestamp).trace =
      [.sortedSetAdd "posts:pid" timestamp postData.pid,
        .incrObjectField "global" "postCount",
        .userOnNewPostMade postData,
        .topicsOnNewPostMade postData,
        .categoriesOnNewPostMade topicData.cid topicData.pinned postData,
        .groupsOnNewPostMade postData] ++
      (addReplyTo env postData timestamp).trace ++ [.uploadsSync postData.pid] := by
  simp [fanOut]

/-- The calls and the value of a run of `create` that returns. -/
theorem create_ok {env : Env} {data : Data} {post : PostData}
    (h : (create env data).result = .ok post) :
    ∃ content pid postData topicData email username fetched,
      (validate env data).result = .ok content ∧
      env.incrObjectField "global" "nextPid" = .resolve pid ∧
      env.filterPostCreate
        (buildPostData env data content (data.timestamp.orElse (.num env.now)) pid) data =
        .resolve postData ∧
      env.getTopicFields data.tid ["cid", "pinned", "uid", "title"] = .resolve topicData ∧
      env.filterPostGet { postData with cid := some topicData.cid } data.uid =
        .resolve fetched ∧
      post = { fetched with isMain := some (data.isMain.orElse (.bool false)) } ∧
      (create env data).trace =
        (validate env data).trace ++
        [.incrObjectField "global" "nextPid",
          .fireFilter "filter:post.create"
            (buildPostData env data content (data.timestamp.orElse (.num env.now)) pid),
          .setObject ("post:" ++ postData.pid.toStr) postData,
          .getTopicFields data.tid ["cid", "pinned", "uid", "title"],
          .getUserField topicData.uid "email",
          .getUserField topicData.uid "username"] ++
        (notify env data { postData with cid := some topicData.cid } topicData email
          username).trace ++
        (fanOut env { postData with cid := some topicData.cid } topicData
          (data.timestamp.orElse (.num env.now))).trace ++
        [.fireFilter "filter:post.get" { postData with cid := some topicData.cid },
          .fireAction "action:post.save" post] := by
  unfold create at h ⊢
  obtain ⟨content, hv, h⟩ := Run.result_bind_ok_iff.mp h
  rw [Run.bind_of_ok _ hv]
  unfold persist at h ⊢
  obtain ⟨pid, hpid, h⟩ := Run.result_bind_ok_iff.mp h
  rw [Run.bind_of_ok _ hpid]
  obtain ⟨postData, hhook, h⟩ := Run.result_bind_ok_iff.mp h
  rw [Run.bind_of_ok _ hhook]
  obtain ⟨u, hset, h⟩ := Run.result_bind_ok_iff.mp h
  rw [Run.bind_of_ok _ hset]
  unfold afterWrite at h ⊢
  obtain ⟨topicData, htopic, h⟩ := Run.result_bind_ok_iff.mp h
  rw [Run.bind_of_ok _ htopic]
  obtain ⟨email, hemail, h⟩ := Run.result_bind_ok_iff.mp h
  rw [Run.bind_of_ok _ hemail]
  obtain ⟨username, huser, h⟩ := Run.result_bind_ok_iff.mp h
  rw [Run.bind_of_ok _ huser]
  obtain ⟨u1, hnotify, h⟩ := Run.result_bind_ok_iff.mp h
  rw [Run.bind_of_ok _ hnotify]
  unfold finish at h ⊢
  obtain ⟨u2, hfan, h⟩ := Run.result_bind_ok_iff.mp h
  rw [Run.bind_of_ok _ hfan]
  obtain ⟨fetched, hget, h⟩ := Run.result_bind_ok_iff.mp h
  rw [Run.bind_of_ok _ hget]
  obtain ⟨u3, hact, h⟩ := Run.result_bind_ok_iff.mp h
  rw [Run.bind_of_ok _ hact]
  simp only [Run.result_pure, Outcome.ok.injEq] at h
  have await_ok : ∀ {α : Type} {ans : Answer α} {a : α}, ans.await = .ok a → ans = .resolve a := by
    intro α ans a ha
    cases ans with
    | resolve b => simp [Answer.await] at ha; rw [ha]
    | reject m => simp [Answer.await] at ha
  refine ⟨content, pid, postData, topicData, email, username, fetched, hv, await_ok hpid,
    await_ok hhook, await_ok htopic, await_ok hget, h.symm, ?_⟩
  subst h
  simp

theorem validate_filter_nil (p : Effect → Bool) (env : Env) (data : Data)
    (h₁ : ∀ a b, p (.getPostFields a b) = false) (h₂ : ∀ a b c, p (.can a b c) = false) :
    (validate env data).trace.filter p = [] := by
  rcases validate_trace env data with h | h <;> rw [h] <;> simp [h₁, h₂]

theorem notify_filter_nil (p : Effect → Bool) (env : Env) (data : Data) (postData : PostData)
    (topicData : TopicData) (email username : JSVal)
    (h₁ : ∀ a b c d, p (.sendNotificationEmail a b c d) = false)
    (h₂ : ∀ a b, p (.consoleError a b) = false) :
    (notify env data postData topicData email username).trace.filter p = [] := by
  unfold notify
  split
  · cases hp : emailParams data postData topicData username with
    | none => rfl
    | some params =>
      cases h : env.sendNotificationEmail "notification" email "en-GB" params <;>
        simp [Run.tryCatch, Answer.await, h, h₁, h₂]
  · rfl

theorem notify_sends (env : Env) (data : Data) (postData : PostData) (topicData : TopicData)
    (email username : JSVal) :
    (notify env data postData topicData email username).trace.filter Effect.isSend =
      if data.tid.truthy && topicData.uid.truthy && !(data.uid.strictEq topicData.uid) then
        match emailParams data postData topicData username with
        | none => []
        | some params => [.sendNotificationEmail "notification" email "en-GB" params]
      else [] := by
  unfold notify
  split
  · cases hp : emailParams data postData topicData username with
    | none => rfl
    | some params =>
      cases h : env.sendNotificationEmail "notification" email "en-GB" params <;>
        simp [Run.tryCatch, Answer.await, h, Effect.isSend]
  · rfl

theorem emailParams_isSome (data : Data) (postData : PostData) (topicData : TopicData)
    (username : JSVal) :
    (emailParams data postData topicData username).isSome = topicData.title.isString := by
  unfold emailParams
  cases topicData.title <;> rfl

theorem fanOut_filter_nil (p : Effect → Bool) (env : Env) (postData : PostData)
    (topicData : TopicData) (timestamp : JSVal)
    (h₁ : ∀ a b c, p (.sortedSetAdd a b c) = false)
    (h₂ : ∀ a b, p (.incrObjectField a b) = false)
    (h₃ : ∀ a, p (.userOnNewPostMade a) = false)
    (h₄ : ∀ a, p (.topicsOnNewPostMade a) = false)
    (h₅ : ∀ a b c, p (.categoriesOnNewPostMade a b c) = false)
    (h₆ : ∀ a, p (.groupsOnNewPostMade a) = false)
    (h₇ : ∀ a, p (.uploadsSync a) = false) :
    (fanOut env postData topicData timestamp).trace.filter p = [] := by
  rw [fanOut_trace, addReplyTo_trace]
  split <;> simp [h₁, h₂, h₃, h₄, h₅, h₆, h₇]

theorem finish_filter (p : Effect → Bool) (env : Env) (data : Data) (timestamp : JSVal)
    (postData : PostData) (topicData : TopicData)
    (h₁ : ∀ a b, p (.fireFilter a b) = false) (h₂ : ∀ a b, p (.fireAction a b) = false) :
    (finish env data timestamp postData topicData).trace.filter p =
      (fanOut env postData topicData timestamp).trace.filter p := by
  unfold finish
  refine Run.filter_bind_tail_nil _ fun _ => ?_
  refine Run.filter_bind_nil _ (by simp [h₁]) fun post => ?_
  exact Run.filter_bind_nil _ (by simp [h₂]) fun _ => by simp

theorem finish_sends (env : Env) (data : Data) (timestamp : JSVal) (postData : PostData)
    (topicData : TopicData) :
    (finish env data timestamp postData topicData).trace.filter Effect.isSend = [] := by
  rw [finish_filter _ _ _ _ _ _ (by intros; rfl) (by intros; rfl)]
  exact fanOut_filter_nil _ _ _ _ _ (by intros; rfl) (by intros; rfl) (by intros; rfl)
    (by intros; rfl) (by intros; rfl) (by intros; rfl) (by intros; rfl)

theorem notify_sends_le (env : Env) (data : Data) (postData : PostData) (topicData : TopicData)
    (email username : JSVal) :
    ((notify env data postData topicData email username).trace.filter Effect.isSend).length ≤
      1 := by
  rw [notify_sends]
  split
  · cases emailParams data postData topicData username <;> simp
  · simp

theorem create_sends_le (env : Env) (data : Data) :
    ((create env data).trace.filter Effect.isSend).length ≤ 1 := by
  have h0 : ∀ eff : Effect, eff.isSend = false → (List.filter Effect.isSend [eff]).length ≤ 0 := by
    intro eff h; simp [h]
  have : ((create env data).trace.filter Effect.isSend).length ≤
      0 + (0 + (0 + (0 + (0 + (0 + (0 + (1 + 0))))))) := by
    unfold create
    refine Run.length_filter_bind_le _ ?_ fun content => ?_
    · rw [validate_filter_nil _ _ _ (by intros; rfl) (by intros; rfl)]; simp
    unfold persist
    refine Run.length_filter_bind_le _ (h0 _ rfl) fun pid => ?_
    refine Run.length_filter_bind_le _ (h0 _ rfl) fun postData => ?_
    refine Run.length_filter_bind_le _ (h0 _ rfl) fun _ => ?_
    unfold afterWrite
    refine Run.length_filter_bind_le _ (h0 _ rfl) fun topicData => ?_
    refine Run.length_filter_bind_le _ (h0 _ rfl) fun email => ?_
    refine Run.length_filter_bind_le _ (h0 _ rfl) fun username => ?_
    refine Run.length_filter_bind_le _ (notify_sends_le _ _ _ _ _ _) fun _ => ?_
    rw [finish_sends]; simp
  simpa using this

/-- The calls to the emailer of a run that reaches the notification. -/
theorem create_sends (env : Env) (data : Data) (content : String) (pid : JSVal)
    (postData : PostData) (topicData : TopicData) (email username : JSVal)
    (hv : (validate env data).result = .ok content)
    (hpid : env.incrObjectField "global" "nextPid" = .resolve pid)
    (hhook : env.filterPostCreate
      (buildPostData env data content (data.timestamp.orElse (.num env.now)) pid) data =
        .resolve postData)
    (hset : env.setObject ("post:" ++ postData.pid.toStr) postData = .resolve ())
    (htopic : env.getTopicFields data.tid ["cid", "pinned", "uid", "title"] =
      .resolve topicData)
    (hemail : env.getUserField topicData.uid "email" = .resolve email)
    (huser : env.getUserField topicData.uid "username" = .resolve username) :
    (create env data).trace.filter Effect.isSend =
      (notify env data { postData with cid := some topicData.cid } topicData email
        username).trace.filter Effect.isSend := by
  have ok : ∀ {α : Type} (eff : Effect) {ans : Answer α} {a : α}, ans = .resolve a →
      (Run.call eff ans).result = .ok a := by
    intro α eff ans a h; rw [h]; rfl
  unfold create
  rw [Run.filter_bind_ok _ _ hv, validate_filter_nil _ _ _ (by intros; rfl) (by intros; rfl)]
  unfold persist
  rw [Run.filter_bind_ok _ _ (ok _ hpid), Run.filter_bind_ok _ _ (ok _ hhook),
    Run.filter_bind_ok _ _ (ok _ hset)]
  unfold afterWrite
  rw [Run.filter_bind_ok _ _ (ok _ htopic), Run.filter_bind_ok _ _ (ok _ hemail),
    Run.filter_bind_ok _ _ (ok _ huser)]
  rw [Run.filter_bind_tail_nil _ fun _ => finish_sends _ _ _ _ _]
  simp [Effect.isSend]

theorem call_ok {α : Type} (eff : Effect) {ans : Answer α} {a : α} (h : ans = .resolve a) :
    (Run.call eff ans).result = .ok a := by
  rw [h]; rfl

theorem call_error {α : Type} (eff : Effect) {ans : Answer α} {m : String}
    (h : ans = .reject m) : (Run.call eff ans).result = .error (.collab m) := by
  rw [h]; rfl

theorem afterWrite_setObject (env : Env) (data : Data) (timestamp : JSVal)
    (postData : PostData) :
    (afterWrite env data timestamp postData).trace.filter Effect.isSetObject = [] := by
  unfold afterWrite
  refine Run.filter_bind_nil _ (by simp [Effect.isSetObject]) fun topicData => ?_
  refine Run.filter_bind_nil _ (by simp [Effect.isSetObject]) fun email => ?_
  refine Run.filter_bind_nil _ (by simp [Effect.isSetObject]) fun username => ?_
  refine Run.filter_bind_nil _
    (notify_filter_nil _ _ _ _ _ _ _ (by intros; rfl) (by intros; rfl)) fun _ => ?_
  rw [finish_filter _ _ _ _ _ _ (by intros; rfl) (by intros; rfl)]
  exact fanOut_filter_nil _ _ _ _ _ (by intros; rfl) (by intros; rfl) (by intros; rfl)
    (by intros; rfl) (by intros; rfl) (by intros; rfl) (by intros; rfl)

/-- The writes of a post object by a run of `create` whose `filter:post.create`
hook answers `postData`. -/
theorem create_setObject (env : Env) (data : Data) (content : String) (pid : JSVal)
    (postData : PostData)
    (hv : (validate env data).result = .ok content)
    (hpid : env.incrObjectField "global" "nextPid" = .resolve pid)
    (hhook : env.filterPostCreate
      (buildPostData env data content (data.timestamp.orElse (.num env.now)) pid) data =
        .resolve postData) :
    (create env data).trace.filter Effect.isSetObject =
      [.setObject ("post:" ++ postData.pid.toStr) postData] := by
  unfold create
  rw [Run.filter_bind_ok _ _ hv, validate_filter_nil _ _ _ (by intros; rfl) (by intros; rfl)]
  unfold persist
  rw [Run.filter_bind_ok _ _ (call_ok _ hpid), Run.filter_bind_ok _ _ (call_ok _ hhook)]
  rw [Run.filter_bind_tail_nil _ fun _ => afterWrite_setObject _ _ _ _]
  simp [Effect.isSetObject]

/-- A run of `create` writes no post object unless the validation passes and
the id is allocated. -/
theorem create_setObject_mem (env : Env) (data : Data) (key : String) (record : PostData)
    (hhook : ∀ post d, env.filterPostCreate post d = .resolve post)
    (h : Effect.setObject key record ∈ (create env data).trace) :
    ∃ content pid, (validate env data).result = .ok content ∧
      env.incrObjectField "global" "nextPid" = .resolve pid ∧
      key = "post:" ++ pid.toStr ∧
      record = buildPostData env data content (data.timestamp.orElse (.num env.now)) pid := by
  have hmem : Effect.setObject key record ∈ (create env data).trace.filter Effect.isSetObject :=
    List.mem_filter.mpr ⟨h, rfl⟩
  cases hv : (validate env data).result with
  | error e =>
    rw [create_of_validate_error hv] at hmem
    rw [validate_filter_nil _ _ _ (by intros; rfl) (by intros; rfl)] at hmem
    simp at hmem
  | ok content =>
    cases hpid : env.incrObjectField "global" "nextPid" with
    | reject m =>
      unfold create persist at hmem
      rw [Run.filter_bind_ok _ _ hv,
        validate_filter_nil _ _ _ (by intros; rfl) (by intros; rfl),
        Run.bind_of_error _ (call_error _ hpid)] at hmem
      simp [Effect.isSetObject] at hmem
    | resolve pid =>
      rw [create_setObject env data content pid _ hv hpid (hhook _ _)] at hmem
      simp only [List.mem_singleton, Effect.setObject.injEq] at hmem
      exact ⟨content, pid, rfl, rfl, hmem.1, hmem.2⟩

/-- Claim C6. When the validation passes, the id is allocated and the
`filter:post.create` hook returns the post unchanged, `create` issues exactly
one `db.setObject`, to the key `post:<pid>`; the record it writes has an `ip`
property if and only if the caller supplied a (truthy) `ip` and
`meta.config.trackIpPerPost` is enabled (truthy), and that property is the
supplied `ip`. -/
theorem create_stored_ip_iff (env : Env) (data : Data) (content : String) (pid : JSVal)
    (hv : (validate env data).result = .ok content)
    (hpid : env.incrObjectField "global" "nextPid" = .resolve pid)
    (hhook : ∀ post d, env.filterPostCreate post d = .resolve post) :
    ∃ record,
      (create env data).trace.filter Effect.isSetObject =
        [.setObject ("post:" ++ pid.toStr) record] ∧
      (record.ip.isSome = true ↔ data.ip.truthy = true ∧ env.trackIpPerPost.truthy = true) ∧
      ∀ ip, record.ip = some ip → ip = data.ip := by
  refine ⟨buildPostData env data content (data.timestamp.orElse (.num env.now)) pid,
    create_setObject env data content pid _ hv hpid (hhook _ _), ?_, ?_⟩
  · simp only [buildPostData]
    cases data.ip.truthy <;> cases env.trackIpPerPost.truthy <;> simp
  · intro ip
    simp only [buildPostData]
    split
    · intro h; exact (Option.some.inj h).symm
    · intro h; cases h

/-- Claim C3. The post object built from the input has the uid 0 when the
`anonymous` flag is set (truthy) and the supplied uid otherwise, whatever the
supplied uid. When the `filter:post.create` and `filter:post.get` hooks return
the post unchanged, every record written with `db.setObject` has that uid, and a
run that returns has written such a record and returns a post with that uid. -/
theorem create_anonymous_uid (env : Env) (data : Data)
    (hcreate : ∀ post d, env.filterPostCreate post d = .resolve post)
    (hget : ∀ post uid, env.filterPostGet post uid = .resolve post) :
    (∀ content timestamp pid,
      (buildPostData env data content timestamp pid).uid =
        if data.anonymous.truthy then .num 0 else data.uid) ∧
    (∀ key record, Effect.setObject key record ∈ (create env data).trace →
      record.uid = if data.anonymous.truthy then .num 0 else data.uid) ∧
    (∀ post, (create env data).result = .ok post →
      (∃ key record, Effect.setObject key record ∈ (create env data).trace) ∧
      post.uid = if data.anonymous.truthy then .num 0 else data.uid) := by
  refine ⟨fun _ _ _ => rfl, ?_, ?_⟩
  · intro key record h
    obtain ⟨content, pid, _, _, _, hrec⟩ := create_setObject_mem env data key record hcreate h
    rw [hrec]; rfl
  · intro post h
    obtain ⟨content, pid, postData, topicData, email, username, fetched, hv, hpid, hhook,
      htopic, hfetched, hpost, htrace⟩ := create_ok h
    rw [hcreate] at hhook
    rw [hget] at hfetched
    cases hhook
    cases hfetched
    refine ⟨?_, ?_⟩
    · have hf := create_setObject env data content pid _ hv hpid (hcreate _ _)
      have hmem : Effect.setObject ("post:" ++ pid.toStr)
          (buildPostData env data content (data.timestamp.orElse (.num env.now)) pid) ∈
          (create env data).trace.filter Effect.isSetObject := by
        rw [hf]; exact List.mem_singleton.mpr rfl
      exact ⟨_, _, (List.mem_filter.mp hmem).1⟩
    · rw [hpost]; rfl

theorem post_key_ne (x : String) : "posts:pid" ≠ "pid:" ++ x ++ ":replies" := by
  intro h
  have := congrArg String.data h
  simp at this

/-- Claim C7, amended. In a run of `create` that returns, let `postData` be
the record written with `db.setObject` (the post as the `filter:post.create`
hook returned it). If it carries a parent reference (a truthy `toPid`), the
field `replies` of `post:<toPid>` is incremented exactly once, and exactly one
member is added to the sorted set `pid:<toPid>:replies`: the pid of the record,
scored by the timestamp of the call (`data.timestamp`, or the current time).
When the hook returns the post unchanged, the parent reference of the record is
the supplied one and its timestamp is the timestamp of the call. -/
theorem create_reply_edge (env : Env) (data : Data) (post : PostData) (key : String)
    (postData : PostData)
    (hres : (create env data).result = .ok post)
    (hstored : Effect.setObject key postData ∈ (create env data).trace)
    (hparent : (prop postData.toPid).truthy = true) :
    (create env data).trace.filter
        (Effect.isIncrOf ("post:" ++ (prop postData.toPid).toStr) "replies") =
      [.incrObjectField ("post:" ++ (prop postData.toPid).toStr) "replies"] ∧
    (create env data).trace.filter
        (Effect.isAddTo ("pid:" ++ (prop postData.toPid).toStr ++ ":replies")) =
      [.sortedSetAdd ("pid:" ++ (prop postData.toPid).toStr ++ ":replies")
        (data.timestamp.orElse (.num env.now)) postData.pid] ∧
    ((∀ p d, env.filterPostCreate p d = .resolve p) →
      postData.toPid = (if data.toPid.truthy then some data.toPid else none) ∧
      postData.timestamp = data.timestamp.orElse (.num env.now)) := by
  obtain ⟨content, pid, postData', topicData, email, username, fetched, hv, hpid, hhook,
    htopic, hfetched, hpost, htrace⟩ := create_ok hres
  have hf := create_setObject env data content pid postData' hv hpid hhook
  have hmem : Effect.setObject key postData ∈
      (create env data).trace.filter Effect.isSetObject := List.mem_filter.mpr ⟨hstored, rfl⟩
  rw [hf] at hmem
  simp only [List.mem_singleton, Effect.setObject.injEq] at hmem
  obtain ⟨_, hpd⟩ := hmem
  subst hpd
  have hparent' : (prop ({ postData with cid := some topicData.cid } : PostData).toPid).truthy =
      true := hparent
  refine ⟨?_, ?_, ?_⟩
  · rw [htrace]
    simp only [List.filter_append]
    rw [validate_filter_nil _ _ _ (by intros; rfl) (by intros; rfl),
      notify_filter_nil _ _ _ _ _ _ _ (by intros; rfl) (by intros; rfl), fanOut_trace,
      addReplyTo_trace, if_pos hparent']
    simp [Effect.isIncrOf]
  · rw [htrace]
    simp only [List.filter_append]
    rw [validate_filter_nil _ _ _ (by intros; rfl) (by intros; rfl),
      notify_filter_nil _ _ _ _ _ _ _ (by intros; rfl) (by intros; rfl), fanOut_trace,
      addReplyTo_trace, if_pos hparent']
    simp [Effect.isAddTo, post_key_ne]
  · intro hid
    rw [hid] at hhook
    cases hhook
    exact ⟨rfl, rfl⟩

/-- Two values that are strictly equal are the same value, hence parse to the
same number. -/
theorem strictEq_parseInt (a b : JSVal) (h : a.strictEq b = true) :
    parseInt a = parseInt b := by
  have hab : a = b := by
    cases a <;> cases b <;> simp_all [JSVal.strictEq]
  rw [hab]

/-- Claim C4, amended. In a run of `create` that reaches the notification
(the validation passes, the id is allocated, the hook answers, the post is
written, the topic and the two fields of its author are fetched),
`emailer.sendNotificationEmail` is called exactly once, with the payload built
from the topic, when the topic id is set, the topic has a known (truthy) author
whose identity differs from the one of the posting actor (the two uids parse to
different numbers) and the title of the topic is a string. It is not called at
all when the author of the topic is unknown (falsy, as the guest uid 0), nor
when the uid of the author and the uid of the actor are the same value. It is
never called more than once. -/
theorem create_notification_count (env : Env) (data : Data) (content : String) (pid : JSVal)
    (postData : PostData) (topicData : TopicData) (email username : JSVal)
    (hv : (validate env data).result = .ok content)
    (hpid : env.incrObjectField "global" "nextPid" = .resolve pid)
    (hhook : env.filterPostCreate
      (buildPostData env data content (data.timestamp.orElse (.num env.now)) pid) data =
        .resolve postData)
    (hset : env.setObject ("post:" ++ postData.pid.toStr) postData = .resolve ())
    (htopic : env.getTopicFields data.tid ["cid", "pinned", "uid", "title"] =
      .resolve topicData)
    (hemail : env.getUserField topicData.uid "email" = .resolve email)
    (huser : env.getUserField topicData.uid "username" = .resolve username) :
    (data.tid.truthy = true → topicData.uid.truthy = true →
      topicData.title.isString = true → parseInt data.uid ≠ parseInt topicData.uid →
      ∃ params,
        emailParams data { postData with cid := some topicData.cid } topicData username =
          some params ∧
        (create env data).trace.filter Effect.isSend =
          [.sendNotificationEmail "notification" email "en-GB" params]) ∧
    (topicData.uid.truthy = false →
      (create env data).trace.filter Effect.isSend = []) ∧
    (data.uid.strictEq topicData.uid = true →
      (create env data).trace.filter Effect.isSend = []) ∧
    ((create env data).trace.filter Effect.isSend).length ≤ 1 := by
  have hsends := create_sends env data content pid postData topicData email username hv hpid
    hhook hset htopic hemail huser
  refine ⟨?_, ?_, ?_, create_sends_le env data⟩
  · intro htid hauthor htitle hdiff
    have hne : data.uid.strictEq topicData.uid = false := by
      cases hs : data.uid.strictEq topicData.uid
      · rfl
      · exact absurd (strictEq_parseInt _ _ hs) hdiff
    have hp := emailParams_isSome data { postData with cid := some topicData.cid } topicData
      username
    rw [htitle] at hp
    obtain ⟨params, hparams⟩ := Option.isSome_iff_exists.mp hp
    refine ⟨params, hparams, ?_⟩
    rw [hsends, notify_sends]
    simp [htid, hauthor, hne, hparams]
  · intro hauthor
    rw [hsends, notify_sends]
    simp [hauthor]
  · intro hsame
    rw [hsends, notify_sends]
    simp [hsame]

theorem Run.same_refl {α : Type} (r : Run α) : r.Same r := ⟨rfl, rfl⟩

theorem Run.same_bind {α β : Type} {r₁ r₂ : Run α} {f₁ f₂ : α → Run β} (hr : r₁.Same r₂)
    (hf : ∀ a, (f₁ a).Same (f₂ a)) : (r₁.bind f₁).Same (r₂.bind f₂) := by
  obtain ⟨hres, htr⟩ := hr
  cases h₁ : r₁.result with
  | ok a =>
    have h₂ : r₂.result = .ok a := by rw [← hres, h₁]
    rw [Run.bind_of_ok _ h₁, Run.bind_of_ok _ h₂]
    refine ⟨(hf a).1, ?_⟩
    have := (hf a).2
    simp only [issued, List.filter_append] at *
    rw [htr, this]
  | error e =>
    have h₂ : r₂.result = .error e := by rw [← hres, h₁]
    rw [Run.bind_of_error _ h₁, Run.bind_of_error _ h₂]
    exact ⟨rfl, htr⟩

theorem notify_result (env : Env) (data : Data) (postData : PostData) (topicData : TopicData)
    (email username : JSVal) :
    (notify env data postData topicData email username).result =
      if data.tid.truthy && topicData.uid.truthy && !(data.uid.strictEq topicData.uid) then
        match emailParams data postData topicData username with
        | none => .error .typeError
        | some _ => .ok ()
      else .ok () := by
  unfold notify
  split
  · cases hp : emailParams data postData topicData username with
    | none => rfl
    | some params =>
      cases h : env.sendNotificationEmail "notification" email "en-GB" params <;>
        simp [Run.tryCatch, Answer.await, h]
  · rfl

theorem notify_issued (env : Env) (data : Data) (postData : PostData) (topicData : TopicData)
    (email username : JSVal) :
    issued (notify env data postData topicData email username).trace =
      if data.tid.truthy && topicData.uid.truthy && !(data.uid.strictEq topicData.uid) then
        match emailParams data postData topicData username with
        | none => []
        | some params => [.sendNotificationEmail "notification" email "en-GB" params]
      else [] := by
  unfold notify
  split
  · cases hp : emailParams data postData topicData username with
    | none => rfl
    | some params =>
      cases h : env.sendNotificationEmail "notification" email "en-GB" params <;>
        simp [Run.tryCatch, Answer.await, h, issued, Effect.isConsoleError]
  · rfl

theorem notify_same (env : Env) (send₁ send₂ : String → JSVal → String → EmailParams → Answer Unit)
    (data : Data) (postData : PostData) (topicData : TopicData) (email username : JSVal) :
    (notify (env.withSend send₁) data postData topicData email username).Same
      (notify (env.withSend send₂) data postData topicData email username) :=
  ⟨by rw [notify_result, notify_result], by rw [notify_issued, notify_issued]⟩

theorem afterWrite_same (env : Env)
    (send₁ send₂ : String → JSVal → String → EmailParams → Answer Unit)
    (data : Data) (timestamp : JSVal) (postData : PostData) :
    (afterWrite (env.withSend send₁) data timestamp postData).Same
      (afterWrite (env.withSend send₂) data timestamp postData) := by
  unfold afterWrite
  refine Run.same_bind (Run.same_refl _) fun topicData => ?_
  refine Run.same_bind (Run.same_refl _) fun email => ?_
  refine Run.same_bind (Run.same_refl _) fun username => ?_
  refine Run.same_bind (notify_same _ _ _ _ _ _ _ _) fun _ => ?_
  exact Run.same_refl _

theorem persist_same (env : Env)
    (send₁ send₂ : String → JSVal → String → EmailParams → Answer Unit)
    (data : Data) (content : String) :
    (persist (env.withSend send₁) data content).Same
      (persist (env.withSend send₂) data content) := by
  unfold persist
  refine Run.same_bind (Run.same_refl _) fun pid => ?_
  refine Run.same_bind (Run.same_refl _) fun postData => ?_
  refine Run.same_bind (Run.same_refl _) fun _ => ?_
  exact afterWrite_same _ _ _ _ _ _

/-- Claim C5. Whatever the input and the other collaborators, two behaviours
of `emailer.sendNotificationEmail` (one that fails, one that succeeds) give
the same outcome of `create`, failure or returned post, and the same calls in
the same order, `console.error` apart. -/
theorem create_send_outcome_invisible (env : Env)
    (send₁ send₂ : String → JSVal → String → EmailParams → Answer Unit) (data : Data) :
    (create (env.withSend send₁) data).result = (create (env.withSend send₂) data).result ∧
    issued (create (env.withSend send₁) data).trace =
      issued (create (env.withSend send₂) data).trace := by
  unfold create
  exact Run.same_bind (Run.same_refl _) fun content => persist_same _ _ _ _ _

theorem uidRefused_iff (uid : JSVal) :
    uidRefused uid = true ↔
      uid = .undefined ∨ uid = .null ∨ uid = .bool false ∨ uid = .nan ∨ uid = .str "" := by
  cases uid with
  | undefined => simp; decide
  | null => simp; decide
  | bool b => cases b <;> simp <;> decide
  | num n =>
    by_cases hn : n = 0
    · subst hn; simp; decide
    · simp [uidRefused, JSVal.truthy, hn]
  | nan => simp; decide
  | str s =>
    by_cases hs : s = ""
    · subst hs; simp; decide
    · simp [uidRefused, JSVal.truthy, hs]

theorem checkToPid_not_invalidUid (env : Env) (toPid uid : JSVal) :
    (checkToPid env toPid uid).result ≠ .error .invalidUid := by
  intro h
  unfold checkToPid at h
  rcases Run.result_bind_error_iff.mp h with h1 | ⟨a, _, h2⟩
  · have := Run.foreign_both (Run.foreign_call (.getPostFields toPid ["pid", "deleted"])
        (env.getPostFields toPid ["pid", "deleted"]))
      (Run.foreign_call (.can "posts:view_deleted" toPid uid)
        (env.can "posts:view_deleted" toPid uid)) _ h1
    simp [Err.isValidation] at this
  · simp only at h2
    split at h2 <;> simp at h2

theorem validate_invalidUid_iff (env : Env) (data : Data) :
    (validate env data).result = .error .invalidUid ↔
      data.content.toStringMethod ≠ none ∧ uidRefused data.uid = true := by
  unfold validate
  cases hc : data.content.toStringMethod with
  | none => simp
  | some content =>
    simp only [ne_eq, reduceCtorEq, not_false_eq_true, true_and]
    by_cases hu : uidRefused data.uid = true
    · simp [hu]
    · simp only [hu, Bool.false_eq_true, if_false, iff_false]
      split
      · intro h
        rcases Run.result_bind_error_iff.mp h with h1 | ⟨a, _, h2⟩
        · exact checkToPid_not_invalidUid _ _ _ h1
        · simp at h2
      · simp

/-- Claim C2, amended. `create` fails with `[[error:invalid-uid]]` exactly
when the content can be converted to a string and the uid is falsy and does not
parse to 0, that is when the uid is `undefined`, `null`, `false`, `NaN` or the
empty string. The uid 0 and every truthy uid, parseable or not, pass the
check. -/
theorem create_invalid_uid_iff (env : Env) (data : Data) :
    (create env data).result = .error .invalidUid ↔
      data.content.toStringMethod ≠ none ∧
      (data.uid = .undefined ∨ data.uid = .null ∨ data.uid = .bool false ∨ data.uid = .nan ∨
        data.uid = .str "") := by
  rw [← uidRefused_iff, ← validate_invalidUid_iff]
  constructor
  · intro h
    exact (create_validation_error (e := .invalidUid) rfl h).1
  · intro h
    rw [create_of_validate_error h]

/-- Counterexample to claim C2 as stated. The uid `"abc"` cannot be parsed as
a number (`parseInt` gives `NaN`), yet the guard does not refuse it and `create`
returns a post with that uid. -/
theorem create_accepts_unparseable_uid :
    parseInt (.str "abc") = none ∧ uidRefused (.str "abc") = false ∧
    (create demoEnv { replyData with uid := .str "abc" }).result =
      .ok (demoPost (.str "abc") none none) := by
  decide

/-- Claim C8. When `create` fails with `[[error:invalid-uid]]` or
`[[error:invalid-pid]]`, it has issued no call that changes a store (no
allocation from `global.nextPid`, no `db.setObject`, no counter, index or reply
edge, no subsystem told of a post): the only calls it may have issued are the
two reads of `checkToPid`. -/
theorem create_validation_failure_writes_nothing (env : Env) (data : Data)
    (h : (create env data).result = .error .invalidUid ∨
      (create env data).result = .error .invalidPid) :
    (create env data).trace.filter Effect.isWrite = [] ∧
    ∀ eff ∈ (create env data).trace,
      eff = .getPostFields data.toPid ["pid", "deleted"] ∨
      eff = .can "posts:view_deleted" data.toPid data.uid := by
  have htr : (create env data).trace = (validate env data).trace := by
    rcases h with h | h
    · exact (create_validation_error (e := .invalidUid) rfl h).2
    · exact (create_validation_error (e := .invalidPid) rfl h).2
  rw [htr]
  rcases validate_trace env data with h0 | h0 <;> rw [h0] <;> simp [Effect.isWrite]

/-- Witness of claim C8: a call without uid fails with
`[[error:invalid-uid]]` and has written nothing. -/
theorem create_validation_failure_writes_nothing_witness :
    (create demoEnv { content := .str "hello" }).result = .error .invalidUid ∧
    (create demoEnv { content := .str "hello" }).trace.filter Effect.isWrite = [] :=
  ⟨by decide,
    (create_validation_failure_writes_nothing demoEnv { content := .str "hello" }
      (Or.inl (by decide))).1⟩

/-- Claim C1. When the parent post is fetched as `toPost` and the
`posts:view_deleted` check answers `canViewToPid`, `checkToPid` fails with
`[[error:invalid-pid]]` if and only if the parent does not exist (`toPost.pid`
is falsy) or is deleted (`toPost.deleted` is truthy) while the answer of the
check is falsy; in every other case it succeeds. `create` runs this check
whenever a (truthy) parent reference is supplied and the uid has passed, and
then fails with `[[error:invalid-pid]]` in the same cases. -/
theorem checkToPid_invalid_pid_iff (env : Env) (toPid uid : JSVal) (toPost : PostFields)
    (canViewToPid : JSVal)
    (hpost : env.getPostFields toPid ["pid", "deleted"] = .resolve toPost)
    (hcan : env.can "posts:view_deleted" toPid uid = .resolve canViewToPid) :
    ((checkToPid env toPid uid).result = .error .invalidPid ↔
      (toPost.pid.truthy = false ∨
        (toPost.deleted.truthy = true ∧ canViewToPid.truthy = false))) ∧
    ((checkToPid env toPid uid).result = .ok () ↔
      (toPost.pid.truthy = true ∧
        (toPost.deleted.truthy = false ∨ canViewToPid.truthy = true))) ∧
    (∀ data : Data, data.toPid = toPid → data.uid = uid → data.toPid.truthy = true →
      data.content.toStringMethod ≠ none → uidRefused data.uid = false →
      ((create env data).result = .error .invalidPid ↔
        (toPost.pid.truthy = false ∨
          (toPost.deleted.truthy = true ∧ canViewToPid.truthy = false)))) := by
  have hres := checkToPid_result env toPid uid toPost canViewToPid hpost hcan
  have h1 : ((checkToPid env toPid uid).result = .error .invalidPid ↔
      (toPost.pid.truthy = false ∨
        (toPost.deleted.truthy = true ∧ canViewToPid.truthy = false))) := by
    rw [hres]
    cases toPost.pid.truthy <;> cases toPost.deleted.truthy <;> cases canViewToPid.truthy <;> simp
  refine ⟨h1, ?_, ?_⟩
  · rw [hres]
    cases toPost.pid.truthy <;> cases toPost.deleted.truthy <;> cases canViewToPid.truthy <;> simp
  · intro data ht hu htruthy hcontent hrefused
    subst ht hu
    rw [← h1]
    have hv : (validate env data).result = .error .invalidPid ↔
        (checkToPid env data.toPid data.uid).result = .error .invalidPid := by
      unfold validate
      cases hc : data.content.toStringMethod with
      | none => exact absurd hc hcontent
      | some content =>
        simp only [hrefused, Bool.false_eq_true, if_false, htruthy, if_true]
        rw [Run.result_bind_error_iff]
        simp
    rw [← hv]
    constructor
    · intro h
      exact (create_validation_error (e := .invalidPid) rfl h).1
    · intro h
      rw [create_of_validate_error h]

theorem utf16_replaceChar (c : Char) :
    (replaceChar c).flatMap utf16 = (utf16 c).map slugUnit := by
  unfold replaceChar
  by_cases h : isAlnum c.toNat = true
  · have hlt : c.toNat < 65536 := by
      simp [isAlnum] at h
      omega
    simp [h, utf16, hlt, slugUnit]
  · by_cases hlt : c.toNat < 65536
    · simp [h, utf16, hlt, slugUnit]
    · have h1 : isAlnum (55296 + (c.toNat - 65536) / 1024) = false := by
        simp [isAlnum]; omega
      have h2 : isAlnum (56320 + (c.toNat - 65536) % 1024) = false := by
        simp [isAlnum]; omega
      simp [h, utf16, hlt, slugUnit, h1, h2]

theorem units_mk (l : List Char) : units (String.mk l) = l.flatMap utf16 := rfl

theorem flatMap_utf16_replace (l : List Char) :
    (l.flatMap replaceChar).flatMap utf16 = (l.flatMap utf16).map slugUnit := by
  induction l with
  | nil => rfl
  | cons c cs ih =>
    simp only [List.flatMap_cons, List.flatMap_append, List.map_append, ih, utf16_replaceChar]

theorem units_replaceNonAlnum (s : String) :
    units (replaceNonAlnum s) = (units s).map slugUnit := by
  unfold replaceNonAlnum
  rw [units_mk, flatMap_utf16_replace]
  rfl

theorem lowerChar_not_upper (c d : Char) (h : d ∈ lowerChar c) :
    ¬ (65 ≤ d.toNat ∧ d.toNat ≤ 90) := by
  unfold lowerChar at h
  split at h
  · rename_i hc
    simp at h
    subst h
    obtain ⟨h1, h2⟩ := hc
    have : (Char.ofNat (c.toNat + 32)).toNat = c.toNat + 32 := by
      generalize c.toNat = n at *
      interval_cases n <;> decide
    omega
  · split at h
    · simp at h
      rcases h with h | h <;> subst h <;> decide
    · split at h
      · simp at h; subst h; decide
      · simp at h; subst h; assumption

theorem units_topicSlug (title : String) :
    units (topicSlug title) = (units (toLowerCase title)).map slugUnit :=
  units_replaceNonAlnum _

theorem mem_toLowerCase_not_upper (title : String) (d : Char)
    (h : d ∈ (toLowerCase title).toList) : ¬ (65 ≤ d.toNat ∧ d.toNat ≤ 90) := by
  unfold toLowerCase at h
  simp only [String.toList, List.mem_flatMap] at h
  obtain ⟨c, _, hd⟩ := h
  exact lowerChar_not_upper c d hd

theorem units_toLowerCase_not_upper (title : String) (u : Nat)
    (h : u ∈ units (toLowerCase title)) : ¬ (65 ≤ u ∧ u ≤ 90) := by
  unfold units at h
  simp only [List.mem_flatMap] at h
  obtain ⟨d, hd, hu⟩ := h
  have hnot := mem_toLowerCase_not_upper title d hd
  unfold utf16 at hu
  split at hu
  · simp at hu; subst hu; exact hnot
  · simp at hu
    omega

theorem slugUnit_of_not_upper (u : Nat) (h : ¬ (65 ≤ u ∧ u ≤ 90)) :
    slugUnit u = if isLowerOrDigit u then u else 45 := by
  have : isAlnum u = isLowerOrDigit u := by
    unfold isAlnum isLowerOrDigit
    have : (decide (65 ≤ u) && decide (u ≤ 90)) = false := by
      simp only [Bool.and_eq_false_imp, decide_eq_true_eq, decide_eq_false_iff_not]
      intro h1 h2; exact h ⟨h1, h2⟩
    rw [this]; simp
  unfold slugUnit
  rw [this]

theorem mem_topicSlug (title : String) (c : Char) (h : c ∈ (topicSlug title).toList) :
    isLowerOrDigit c.toNat = true ∨ c = '-' := by
  unfold topicSlug replaceNonAlnum at h
  simp only [String.toList, List.mem_flatMap] at h
  obtain ⟨d, hd, hc⟩ := h
  have hnot := mem_toLowerCase_not_upper title d hd
  unfold replaceChar at hc
  split at hc
  · rename_i hal
    simp at hc; subst hc
    left
    simp only [isAlnum, Bool.or_eq_true, Bool.and_eq_true, decide_eq_true_eq] at hal
    simp only [isLowerOrDigit, Bool.or_eq_true, Bool.and_eq_true, decide_eq_true_eq]
    omega
  · right
    split at hc <;> simp at hc <;> exact hc

/-- Claim C9, amended. The `topicSlug` of the notification payload is the
lower-cased title in which every non-alphanumeric character (UTF-16 code unit
outside `a-z`, `A-Z`, `0-9`) is replaced by a hyphen, one hyphen for each
character: "My Topic!" gives "my-topic-" and "a  b" gives "a--b". -/
theorem topicSlug_per_character (title : String) :
    units (topicSlug title) = (units (toLowerCase title)).map slugUnit ∧
    (∀ data postData topicData username, topicData.title = .str title →
      (emailParams data postData topicData username).map (fun p => p.notification.topicSlug) =
        some (topicSlug title)) ∧
    topicSlug "My Topic!" = "my-topic-" ∧ topicSlug "a  b" = "a--b" := by
  refine ⟨units_topicSlug title, ?_, by decide, by decide⟩
  intro data postData topicData username h
  simp [emailParams, h]

/-- Counterexample to claim C9 as stated. In "a  b" the run of two spaces
gives two hyphens, where the replacement of every maximal run by a single
hyphen gives one. -/
theorem topicSlug_keeps_runs :
    topicSlug "a  b" = "a--b" ∧ slugBySpec "a  b" = "a-b" ∧
    topicSlug "a  b" ≠ slugBySpec "a  b" := by
  decide

/-- Claim C10. The slug is the image, character by character, of the
lower-cased title: it has the same length (in UTF-16 code units), at every
position a character of `a-z`, `0-9` is kept and any other character gives a
hyphen, so that the slug is made of `a-z`, `0-9` and `-` only (and each of its
characters is a single code unit). -/
theorem topicSlug_charwise (title : String) :
    (units (topicSlug title)).length = (units (toLowerCase title)).length ∧
    (∀ (i : Nat) (u : Nat), (units (toLowerCase title))[i]? = some u →
      (units (topicSlug title))[i]? = some (if isLowerOrDigit u then u else 45)) ∧
    (∀ u ∈ units (topicSlug title), isLowerOrDigit u = true ∨ u = 45) ∧
    (∀ c ∈ (topicSlug title).toList, isLowerOrDigit c.toNat = true ∨ c = '-') ∧
    units (topicSlug title) = (topicSlug title).toList.map Char.toNat := by
  refine ⟨?_, ?_, ?_, mem_topicSlug title, ?_⟩
  · rw [units_topicSlug, List.length_map]
  · intro i u hu
    rw [units_topicSlug, List.getElem?_map, hu]
    simp only [Option.map_some']
    rw [slugUnit_of_not_upper u
      (units_toLowerCase_not_upper title u (List.getElem?_mem hu))]
  · intro u hu
    rw [units_topicSlug, List.mem_map] at hu
    obtain ⟨v, hv, rfl⟩ := hu
    rw [slugUnit_of_not_upper v (units_toLowerCase_not_upper title v hv)]
    by_cases h : isLowerOrDigit v = true
    · left; simp [h]
    · right; simp [h]
  · have key : ∀ l : List Char, (∀ c ∈ l, isLowerOrDigit c.toNat = true ∨ c = '-') →
        l.flatMap utf16 = l.map Char.toNat := by
      intro l
      induction l with
      | nil => intro _; rfl
      | cons c cs ih =>
        intro h
        have hc : c.toNat < 65536 := by
          rcases h c (List.mem_cons_self _ _) with h1 | h1
          · simp only [isLowerOrDigit, Bool.or_eq_true, Bool.and_eq_true,
              decide_eq_true_eq] at h1
            omega
          · subst h1; decide
        simp only [List.flatMap_cons, List.map_cons, utf16, hc, if_true]
        rw [ih fun d hd => h d (List.mem_cons_of_mem _ hd)]
        rfl
    exact key _ (mem_topicSlug title)

/-! ## Witnesses and counterexamples -/

/-- Witness of claim C1: a soft-deleted parent and an actor without the
capability. -/
theorem checkToPid_invalid_pid_iff_witness :
    deletedParentEnv.getPostFields (.num 7) ["pid", "deleted"] =
      .resolve { pid := .num 7, deleted := .num 1 } ∧
    deletedParentEnv.can "posts:view_deleted" (.num 7) (.num 5) = .resolve (.bool false) ∧
    (checkToPid deletedParentEnv (.num 7) (.num 5)).result = .error .invalidPid :=
  ⟨rfl, rfl,
    (checkToPid_invalid_pid_iff deletedParentEnv (.num 7) (.num 5)
      { pid := .num 7, deleted := .num 1 } (.bool false) rfl rfl).1.mpr (Or.inr ⟨rfl, rfl⟩)⟩

/-- Witness of claim C3: the anonymous reply of user 5 is written and returned
with the uid 0. -/
theorem create_anonymous_uid_witness :
    (create demoEnv anonymousData).result =
      .ok (demoPost (.num 0) none (some (.str "10.0.0.1"))) ∧
    ∀ key record, Effect.setObject key record ∈ (create demoEnv anonymousData).trace →
      record.uid = .num 0 :=
  ⟨by decide,
    (create_anonymous_uid demoEnv anonymousData (fun _ _ => rfl) (fun _ _ => rfl)).2.1⟩

/-- Witness of claim C4: the reply of user 5 in a topic of user 1 is notified
once. -/
theorem create_notification_count_witness :
    (validate demoEnv replyData).result = .ok "hello" ∧
    parseInt replyData.uid ≠ parseInt (.num 1) ∧
    ((create demoEnv replyData).trace.filter Effect.isSend).length = 1 :=
  have h := (create_notification_count demoEnv replyData "hello" (.num 42)
    (buildPostData demoEnv replyData "hello" (.num 1000) (.num 42))
    { cid := .num 3, pinned := .num 0, uid := .num 1, title := .str "My Topic!" }
    (.str "email") (.str "username") (by decide) rfl rfl rfl rfl rfl rfl).1
    rfl rfl rfl (by decide)
  ⟨by decide, by decide, by obtain ⟨params, _, hp⟩ := h; rw [hp]; rfl⟩

/-- Counterexample to claim C4 as stated. The topic was created by a guest
(uid 0), who differs from the posting actor 5; `create` returns and the emailer
is not called. -/
theorem create_guest_topic_not_notified :
    JSVal.strictEq (.num 5) (.num 0) = false ∧
    (create guestTopicEnv replyData).result = .ok (demoPost (.num 5) none none) ∧
    (create guestTopicEnv replyData).trace.filter Effect.isSend = [] := by
  decide

/-- Witness of claim C6: with the tracking on, the supplied ip is in the
record written to `post:42`. -/
theorem create_stored_ip_iff_witness :
    (validate demoEnv anonymousData).result = .ok "hello" ∧
    ∃ record,
      (create demoEnv anonymousData).trace.filter Effect.isSetObject =
        [.setObject ("post:" ++ (JSVal.num 42).toStr) record] ∧
      (record.ip.isSome = true ↔
        anonymousData.ip.truthy = true ∧ demoEnv.trackIpPerPost.truthy = true) ∧
      ∀ ip, record.ip = some ip → ip = anonymousData.ip :=
  ⟨by decide,
    create_stored_ip_iff demoEnv anonymousData "hello" (.num 42) (by decide) rfl
      (fun _ _ => rfl)⟩

/-- Witness of claim C7: the reply to the post 7 increments `post:7` once and
adds the new pid 42 to `pid:7:replies` once, at the time 1000. -/
theorem create_reply_edge_witness :
    (create demoEnv replyToData).result = .ok (demoPost (.num 5) (some (.num 7)) none) ∧
    (create demoEnv replyToData).trace.filter (Effect.isIncrOf "post:7" "replies") =
      [.incrObjectField "post:7" "replies"] ∧
    (create demoEnv replyToData).trace.filter (Effect.isAddTo "pid:7:replies") =
      [.sortedSetAdd "pid:7:replies" (.num 1000) (.num 42)] :=
  have h := create_reply_edge demoEnv replyToData (demoPost (.num 5) (some (.num 7)) none)
    "post:42" (buildPostData demoEnv replyToData "hello" (.num 1000) (.num 42))
    (by decide) (by decide) (by decide)
  ⟨by decide, h.1, h.2.1⟩

/-- Counterexample to claim C7 as stated. The call carries the parent
reference 7 and returns, but the `filter:post.create` hook has removed the
reference from the post: the counter of `post:7` is not incremented and nothing
is added to `pid:7:replies`. -/
theorem create_hook_drops_reply_edge :
    replyToData.toPid = .num 7 ∧
    (create strippingEnv replyToData).result = .ok (demoPost (.num 5) none none) ∧
    (create strippingEnv replyToData).trace.filter (Effect.isIncrOf "post:7" "replies") = [] ∧
    (create strippingEnv replyToData).trace.filter (Effect.isAddTo "pid:7:replies") = [] := by
  decide

end NodeBB
